import Mathlib

set_option maxHeartbeats 1000000

/-!
Verification development for `run_rate_app.py`, a single-file project
dashboard: session-dictionary authentication, a document store with
server-assigned timestamps, a time-to-live read cache, role-gated write
paths and in-memory aggregation/export over the fetched records.  The
definitions below are a shallow embedding of that file; the theorems at
the end settle the specification claims against it.
-/

/-- Dynamic values stored in documents, session state and configuration,
mirroring the loosely typed records the Python app passes around.
`serverTimestamp` is the write-time sentinel `firestore.SERVER_TIMESTAMP`;
`time` is a concrete store-assigned timestamp. -/
inductive Value where
  | s : String → Value
  | n : Int → Value
  | b : Bool → Value
  | time : Nat → Value
  | serverTimestamp : Value
  | dict : List (String × Value) → Value
  | null : Value

/-- A document / Python dict: an insertion-ordered association list. -/
abbrev Doc := List (String × Value)

/-- Ordered-dictionary lookup (Python `dict.get`). -/
def aget {α : Type} : List (String × α) → String → Option α
  | [], _ => none
  | (k, v) :: t, k2 => if k == k2 then some v else aget t k2

/-- Ordered-dictionary write (Python `d[k] = v`): updates an existing key in
place, appends a new key at the end. -/
def aset {α : Type} : List (String × α) → String → α → List (String × α)
  | [], k, v => [(k, v)]
  | (k2, v2) :: t, k, v => if k2 == k then (k, v) :: t else (k2, v2) :: aset t k v

/-- Ordered-dictionary delete (Python `del d[k]`). -/
def adel {α : Type} (m : List (String × α)) (k : String) : List (String × α) :=
  m.filter (fun kv => !(kv.1 == k))

/-- Python truthiness of an optional fetched value, as used by
`if st.session_state.get(...)` and `if new_comment`. -/
def truthy : Option Value → Bool
  | none => false
  | some (Value.b x) => x
  | some (Value.s x) => !(x == "")
  | some (Value.n x) => !(x == 0)
  | some (Value.dict d) => !d.isEmpty
  | some (Value.time _) => true
  | some Value.serverTimestamp => true
  | some Value.null => false

/-- Python `==` between a fetched value and a string. -/
def valEqStr : Option Value → String → Bool
  | some (Value.s a), x => a == x
  | _, _ => false

/-- Python `==` between a fetched value and a bool. -/
def valEqBool : Option Value → Bool → Bool
  | some (Value.b a), x => a == x
  | _, _ => false

/-- `doc.to_dict() | {'id': doc.id}`: the store-assigned identity merged into
the record (dict union keeps the left key order and appends new keys). -/
def withId (d : Doc) (i : String) : Doc := aset d "id" (Value.s i)

/-- The document store: named top-level collections, per-project comment
sub-collections, a fresh-id counter and the server clock that resolves
`SERVER_TIMESTAMP` sentinels at write time. -/
structure Store where
  collections : List (String × List (String × Doc))
  comments : List (String × List (String × Doc))
  nextId : Nat
  now : Nat

def getColl (st : Store) (name : String) : List (String × Doc) :=
  (aget st.collections name).getD []

/-- Server-side resolution of the `SERVER_TIMESTAMP` sentinel when a write is
applied: the sentinel becomes the store's current server time. -/
def resolveSentinels (now : Nat) (d : Doc) : Doc :=
  d.map (fun kv =>
    match kv.2 with
    | Value.serverTimestamp => (kv.1, Value.time now)
    | v => (kv.1, v))

def newId (st : Store) : String := "doc" ++ toString st.nextId

/-- `db.collection(name).add(payload)`: a fresh-id document is appended. -/
def addDoc (st : Store) (name : String) (d : Doc) : Store :=
  let rows2 := getColl st name ++ [(newId st, resolveSentinels st.now d)]
  { st with collections := aset st.collections name rows2, nextId := st.nextId + 1 }

/-- Document-level merge used by set-with-merge and partial update, as the
spec describes the consumed store interface: fields present in the payload
overwrite the stored field, all other stored fields are kept. -/
def mergeFields (old p : Doc) : Doc :=
  (old.map (fun kv =>
    match aget p kv.1 with
    | some v => (kv.1, v)
    | none => kv))
  ++ p.filter (fun kv => !(old.any (fun kv2 => kv2.1 == kv.1)))

/-- `db.collection(name).document(i).set(payload, merge=True)`: merges into the
existing document, or creates it when absent. -/
def setMergeDoc (st : Store) (name i : String) (d : Doc) : Store :=
  let p := resolveSentinels st.now d
  let rows := getColl st name
  let rows2 :=
    if rows.any (fun r => r.1 == i) then
      rows.map (fun r => if r.1 == i then (r.1, mergeFields r.2 p) else r)
    else rows ++ [(i, p)]
  { st with collections := aset st.collections name rows2 }

/-- `db.collection(name).document(i).update(fields)`: sets the given fields on
an existing document (modelled as a no-op when the document is absent). -/
def updateDocF (st : Store) (name i : String) (d : Doc) : Store :=
  let p := resolveSentinels st.now d
  let rows2 := (getColl st name).map (fun r => if r.1 == i then (r.1, mergeFields r.2 p) else r)
  { st with collections := aset st.collections name rows2 }

/-- `db.collection(name).document(i).delete()`. -/
def deleteDocF (st : Store) (name i : String) : Store :=
  let rows2 := (getColl st name).filter (fun r => !(r.1 == i))
  { st with collections := aset st.collections name rows2 }

/-- `db.collection("projects").document(pid).collection("comments").add(payload)`. -/
def addCommentDoc (st : Store) (pid : String) (d : Doc) : Store :=
  let rows2 := (aget st.comments pid).getD [] ++ [(newId st, resolveSentinels st.now d)]
  { st with comments := aset st.comments pid rows2, nextId := st.nextId + 1 }

/-- The process-wide `st.cache_data` state.  The source prefixes both cached
functions' parameters with an underscore (`_collection_name`, `_project_id`),
and `st.cache_data` excludes underscore-prefixed parameters from the cache
key: each function therefore has a single shared time-stamped snapshot, not
one entry per argument. -/
structure Cache where
  coll : Option (Nat × List Doc)
  comm : Option (Nat × List Doc)

def emptyCache : Cache := ⟨none, none⟩

/-- Whole-app state: the session dictionary `st.session_state`, the document
store, the read cache, and the client process clock the cache ages against. -/
structure AppState where
  sess : List (String × Value)
  store : Store
  cache : Cache
  now : Nat

/-- Raw rows of a collection as the app receives them:
`[doc.to_dict() | {'id': doc.id} for doc in docs]`. -/
def collRows (st : Store) (name : String) : List Doc :=
  (getColl st name).map (fun r => withId r.2 r.1)

/-- `fetch_collection` under `@st.cache_data(ttl=60)`: a cached snapshot
younger than 60 time units is returned as is - whatever collection name the
call passes, since the underscore-prefixed `_collection_name` is not part of
the cache key - otherwise the store is queried for the requested name and the
single shared snapshot refreshed.  The boolean records whether the store was
actually queried. -/
def fetch_collection (s : AppState) (name : String) : List Doc × AppState × Bool :=
  match s.cache.coll with
  | some (t, v) =>
      if s.now - t < 60 then (v, s, false)
      else
        let v2 := collRows s.store name
        (v2, { s with cache := { s.cache with coll := some (s.now, v2) } }, true)
  | none =>
      let v2 := collRows s.store name
      (v2, { s with cache := { s.cache with coll := some (s.now, v2) } }, true)

def tsOf (d : Doc) : Nat :=
  match aget d "timestamp" with
  | some (Value.time x) => x
  | _ => 0

def insertByTs (c : Doc) : List Doc → List Doc
  | [] => [c]
  | d :: ds => if tsOf c < tsOf d then c :: d :: ds else d :: insertByTs c ds

/-- Ascending stable sort by the server-assigned timestamp, the
`order_by("timestamp")` of the comments query. -/
def sortByTs (l : List Doc) : List Doc := l.foldr insertByTs []

def commentRows (st : Store) (pid : String) : List Doc :=
  sortByTs (((aget st.comments pid).getD []).map (fun r => withId r.2 r.1))

/-- `fetch_comments` under `@st.cache_data(ttl=30)`: one shared snapshot for
all projects, since the underscore-prefixed `_project_id` is not part of the
cache key. -/
def fetch_comments (s : AppState) (pid : String) : List Doc × AppState × Bool :=
  match s.cache.comm with
  | some (t, v) =>
      if s.now - t < 30 then (v, s, false)
      else
        let v2 := commentRows s.store pid
        (v2, { s with cache := { s.cache with comm := some (s.now, v2) } }, true)
  | none =>
      let v2 := commentRows s.store pid
      (v2, { s with cache := { s.cache with comm := some (s.now, v2) } }, true)

/-- Pure passage of client time between interactions. -/
def advance (s : AppState) (dt : Nat) : AppState := { s with now := s.now + dt }

/-- Deployment configuration: the credential store's known identities and the
static `user_roles` identity-to-role map from `st.secrets`. -/
structure Config where
  credEmails : List String
  userRoles : List (String × String)

/-- `login_user`: looks the identity up in the credential store (no secret
verification) and on success sets the login flag, the identity, and the role
`st.secrets["user_roles"].get(email, "readonly")`; an unknown identity only
shows an error. -/
def login_user (cfg : Config) (sess : List (String × Value)) (email : String) :
    List (String × Value) :=
  if cfg.credEmails.contains email then
    aset (aset (aset sess "logged_in" (Value.b true)) "user_email" (Value.s email))
      "role" (Value.s ((aget cfg.userRoles email).getD "readonly"))
  else sess

/-- `logout_user`: deletes every key of the session dictionary, one by one
(`for key in list(st.session_state.keys()): del st.session_state[key]`). -/
def logout_user (sess : List (String × Value)) : List (String × Value) :=
  (sess.map Prod.fst).foldl adel sess

def isLoggedIn (s : AppState) : Bool := truthy (aget s.sess "logged_in")

/-- The session's role string (`st.session_state.role`); empty when unset. -/
def roleStr (sess : List (String × Value)) : String :=
  match aget sess "role" with
  | some (Value.s r) => r
  | _ => ""

def projectDialogOpen (s : AppState) : Bool := truthy (aget s.sess "show_project_dialog")

def settingsDialogOpen (s : AppState) : Bool := truthy (aget s.sess "show_settings_dialog")

/-- `st.session_state.get('editing_project', {})` as a document. -/
def editingProject (s : AppState) : Doc :=
  match aget s.sess "editing_project" with
  | some (Value.dict d) => d
  | _ => []

/-- `is_new = project_data.get('id') is None`. -/
def editingIsNew (s : AppState) : Bool :=
  match aget (editingProject s) "id" with
  | none => true
  | some Value.null => true
  | some _ => false

/-- The values carried by the add/edit project form: one entry per widget,
with one non-negative quantity/bundled pair per fixed component key. -/
structure ProjectForm where
  supplierName : String
  poRef : String
  firstContact : Nat
  mainPoc : String
  region : String
  isNPI : String
  businessArea : String
  status : String
  sensor : Nat × Bool
  terminal : Nat × Bool
  plastic : Nat × Bool
  iuBracket : Nat × Bool
  heatInsulator : Nat × Bool

def qtyVal (q : Nat × Bool) : Value :=
  Value.dict [("qty", Value.n q.1), ("bundled", Value.b q.2)]

/-- `new_quantities`, keyed by the fixed `q_keys` of the form. -/
def buildQuantities (f : ProjectForm) : Value :=
  Value.dict
    [("sensor", qtyVal f.sensor), ("terminal", qtyVal f.terminal),
     ("plastic", qtyVal f.plastic), ("iu_bracket", qtyVal f.iuBracket),
     ("heat_insulator", qtyVal f.heatInsulator)]

/-- The payload assembled by the save handler; `lastActivity` always carries
the server-timestamp sentinel, never a client clock value. -/
def buildPayload (f : ProjectForm) : Doc :=
  [("supplierName", Value.s f.supplierName), ("poRef", Value.s f.poRef),
   ("firstContact", Value.time f.firstContact), ("mainPoc", Value.s f.mainPoc),
   ("region", Value.s f.region), ("isNPI", Value.s f.isNPI),
   ("businessArea", Value.s f.businessArea), ("status", Value.s f.status),
   ("quantities", buildQuantities f), ("lastActivity", Value.serverTimestamp)]

/-- The four lookup collections managed from the settings surface. -/
def lookupKeys : List String := ["suppliers", "statuses", "regions", "pocs"]

/-- Save branch of `project_dialog`: the submit handler exists only when the
role is not `readonly`; it adds a new project or set-merges the edited one,
then closes the dialog and clears the whole read cache.  The boolean records
whether a store write happened. -/
def project_dialog_save (s : AppState) (f : ProjectForm) : AppState × Bool :=
  if roleStr s.sess == "readonly" then (s, false)
  else
    let sess2 := aset s.sess "show_project_dialog" (Value.b false)
    if editingIsNew s then
      ({ s with store := addDoc s.store "projects" (buildPayload f), sess := sess2, cache := emptyCache }, true)
    else
      match aget (editingProject s) "id" with
      | some (Value.s pid) =>
          ({ s with store := setMergeDoc s.store "projects" pid (buildPayload f), sess := sess2, cache := emptyCache }, true)
      | _ => (s, false)

/-- Comment branch of `project_dialog`: rendered for every role whenever an
existing project is open; a non-empty text adds a comment and touches the
parent project's `lastActivity`, both with the server-timestamp sentinel,
then clears the whole read cache. -/
def project_dialog_post_comment (s : AppState) (text : String) : AppState × Bool :=
  if editingIsNew s then (s, false)
  else
    match aget (editingProject s) "id" with
    | some (Value.s pid) =>
        if text == "" then (s, false)
        else
          let cdoc : Doc :=
            [("text", Value.s text),
             ("user", (aget s.sess "user_email").getD Value.null),
             ("timestamp", Value.serverTimestamp)]
          let st2 :=
            updateDocF (addCommentDoc s.store pid cdoc) "projects" pid
              [("lastActivity", Value.serverTimestamp)]
          ({ s with store := st2, cache := emptyCache }, true)
    | _ => (s, false)

/-- Delete button of `settings_dialog`: looks the entry up through the cached
read path and deletes it, then clears the whole read cache; the handler makes
no role check of its own. -/
def settings_delete (s : AppState) (key item : String) : AppState × Bool :=
  let r := fetch_collection s key
  match r.1.find? (fun d => valEqStr (aget d "name") item) with
  | some d =>
      match aget d "id" with
      | some (Value.s did) =>
          ({ r.2.1 with store := deleteDocF r.2.1.store key did, cache := emptyCache }, true)
      | _ => (r.2.1, false)
  | none => (r.2.1, false)

/-- Add form of `settings_dialog`: a non-empty name is added, then the whole
read cache is cleared; the handler makes no role check of its own. -/
def settings_add (s : AppState) (key item : String) : AppState × Bool :=
  if item == "" then (s, false)
  else ({ s with store := addDoc s.store key [("name", Value.s item)], cache := emptyCache }, true)

/-- The user interactions the rendered page can deliver. -/
inductive Event where
  | tick (dc ds : Nat)
  | loginSubmit (email password : String)
  | clickLogout
  | clickAddProject
  | clickSettings
  | closeProjectDialog
  | closeSettingsDialog
  | clickEditGrid (pid : String)
  | clickViewEditTable (pid : String)
  | saveProject (f : ProjectForm)
  | postComment (text : String)
  | clickDeleteLookup (key item : String)
  | submitAddLookup (key item : String)

/-- Shared body of the two edit buttons: loads the clicked row through the
cached read path and opens the edit dialog on it. -/
def openProject (s : AppState) (pid : String) : AppState × Bool :=
  let r := fetch_collection s "projects"
  match r.1.find? (fun d => valEqStr (aget d "id") pid) with
  | some d =>
      let sess2 :=
        aset (aset r.2.1.sess "editing_project" (Value.dict d)) "show_project_dialog" (Value.b true)
      ({ r.2.1 with sess := sess2 }, false)
  | none => (r.2.1, false)

/-- One user interaction against the rendered page.  An event is a no-op
unless the widget that would trigger it is actually rendered in the given
state: the login form only when logged out; the header buttons whenever
logged in, with add-project, settings and the grid edit button further gated
on the `editor` role; dialog widgets only while the dialog is shown, the
project dialog shadowing the settings dialog; the edit buttons only on the
tab pages.  Which rows the active tab filters happen to display is
abstracted: any fetched project row is clickable.  The boolean records
whether a document-store write was performed. -/
def step (cfg : Config) (s : AppState) (e : Event) : AppState × Bool :=
  match e with
  | Event.tick dc ds =>
      ({ s with now := s.now + dc, store := { s.store with now := s.store.now + ds } }, false)
  | Event.loginSubmit email _pw =>
      if isLoggedIn s then (s, false)
      else ({ s with sess := login_user cfg s.sess email }, false)
  | Event.clickLogout =>
      if isLoggedIn s then ({ s with sess := logout_user s.sess }, false) else (s, false)
  | Event.clickAddProject =>
      if isLoggedIn s && (roleStr s.sess == "editor") then
        let sess2 :=
          aset (aset s.sess "show_project_dialog" (Value.b true)) "editing_project" (Value.dict [])
        ({ s with sess := sess2 }, false)
      else (s, false)
  | Event.clickSettings =>
      if isLoggedIn s && (roleStr s.sess == "editor") then
        ({ s with sess := aset s.sess "show_settings_dialog" (Value.b true) }, false)
      else (s, false)
  | Event.closeProjectDialog =>
      if isLoggedIn s && projectDialogOpen s then
        ({ s with sess := aset s.sess "show_project_dialog" (Value.b false) }, false)
      else (s, false)
  | Event.closeSettingsDialog =>
      if isLoggedIn s && !projectDialogOpen s && settingsDialogOpen s then
        ({ s with sess := aset s.sess "show_settings_dialog" (Value.b false) }, false)
      else (s, false)
  | Event.clickEditGrid pid =>
      if isLoggedIn s && !projectDialogOpen s && !settingsDialogOpen s
          && (roleStr s.sess == "editor") then
        openProject s pid
      else (s, false)
  | Event.clickViewEditTable pid =>
      if isLoggedIn s && !projectDialogOpen s && !settingsDialogOpen s then
        openProject s pid
      else (s, false)
  | Event.saveProject f =>
      if isLoggedIn s && projectDialogOpen s then project_dialog_save s f else (s, false)
  | Event.postComment text =>
      if isLoggedIn s && projectDialogOpen s then project_dialog_post_comment s text
      else (s, false)
  | Event.clickDeleteLookup key item =>
      if isLoggedIn s && !projectDialogOpen s && settingsDialogOpen s
          && lookupKeys.contains key then
        settings_delete s key item
      else (s, false)
  | Event.submitAddLookup key item =>
      if isLoggedIn s && !projectDialogOpen s && settingsDialogOpen s
          && lookupKeys.contains key then
        settings_add s key item
      else (s, false)

/-- Per-row sensor quantity of the summary page:
`q.get('sensor', {}).get('qty', 0) if isinstance(q, dict) else 0`.
A non-mapping `sensor` entry or a non-integer `qty` would raise once used,
modelled as an error result. -/
def sensor_qty_of (q : Option Value) : Except String Int :=
  match q with
  | some (Value.dict d) =>
      match aget d "sensor" with
      | none => Except.ok 0
      | some (Value.dict sd) =>
          match aget sd "qty" with
          | none => Except.ok 0
          | some (Value.n x) => Except.ok x
          | some _ => Except.error "TypeError"
      | some _ => Except.error "AttributeError"
  | _ => Except.ok 0

/-- `any(item.get('bundled', False) for item in q.values())`, with the
generator's short-circuit: items after the first truthy hit are not touched. -/
def anyBundled : List (String × Value) → Except String Bool
  | [] => Except.ok false
  | (_, Value.dict item) :: rest =>
      if truthy (aget item "bundled") then Except.ok true else anyBundled rest
  | _ :: _ => Except.error "AttributeError"

/-- Bundled-pricing classification of a row's `quantities` value:
`... if isinstance(q, dict) else False`. -/
def has_bundled_of (q : Option Value) : Except String Bool :=
  match q with
  | some (Value.dict d) => anyBundled d
  | _ => Except.ok false

/-- Group key for `groupby('region')`: rows without a string region fall out
of the grouping, as pandas drops missing keys. -/
def regionKeyOf (r : Doc) : Option String :=
  match aget r "region" with
  | some (Value.s x) => some x
  | _ => none

def addTo (acc : List (String × Int)) (k : String) (v : Int) : List (String × Int) :=
  if acc.any (fun kv => kv.1 == k) then
    acc.map (fun kv => if kv.1 == k then (kv.1, kv.2 + v) else kv)
  else acc ++ [(k, v)]

def groupSum (l : List (String × Int)) : List (String × Int) :=
  l.foldl (fun acc p => addTo acc p.1 p.2) []

/-- `summary_df.groupby('region')['sensor_qty'].sum()` where the
`sensor_qty` column is first derived row-wise from `quantities`; the order
of the produced groups is abstracted. -/
def sensorsByRegion (rows : List Doc) : Except String (List (String × Int)) := do
  let pairs ← rows.mapM (fun r => do
    let c ← sensor_qty_of (aget r "quantities")
    pure (regionKeyOf r, c))
  pure (groupSum (pairs.filterMap (fun p => p.1.map (fun k => (k, p.2)))))

/-- An in-memory pandas dataframe: a column list plus its rows. -/
structure DFrame where
  cols : List String
  rows : List Doc

/-- Column set of `pd.DataFrame(records)`: the union of the record keys in
order of first appearance. -/
def dfCols (rs : List Doc) : List String :=
  rs.foldl
    (fun acc r => (r.map Prod.fst).foldl (fun a k => if a.contains k then a else a ++ [k]) acc)
    []

def dfOfRecords (rs : List Doc) : DFrame := ⟨dfCols rs, rs⟩

/-- A `df[df[c] == v]` row filter; `none` is the "All" choice. -/
def filterEqCol (df : DFrame) (c : String) (v : Option String) : DFrame :=
  match v with
  | none => df
  | some x => { df with rows := df.rows.filter (fun r => valEqStr (aget r c) x) }

/-- `filtered_data['has_bundled'] = ...`: derives the bundled flag row-wise
and appends the column. -/
def addBundledCol (df : DFrame) : Except String DFrame := do
  let rows ← df.rows.mapM (fun r => do
    let hb ← has_bundled_of (aget r "quantities")
    pure (aset r "has_bundled" (Value.b hb)))
  pure ⟨if df.cols.contains "has_bundled" then df.cols else df.cols ++ ["has_bundled"], rows⟩

/-- The pricing filter: when active it first materialises `has_bundled` as a
dataframe column, then keeps the matching rows. -/
def filterPricing (df : DFrame) (pf : Option Bool) : Except String DFrame :=
  match pf with
  | none => Except.ok df
  | some x => do
      let df2 ← addBundledCol df
      pure { df2 with rows := df2.rows.filter (fun r => valEqBool (aget r "has_bundled") x) }

/-- The filter-and-export pipeline of `render_project_page` down to
`filtered_data.to_csv(index=False)`: region, POC, pricing and business-area
filters over the project rows; the result's `cols` are exactly the exported
CSV columns. -/
def exportView (data : List Doc) (regionF pocF : Option String) (pricingF : Option Bool)
    (bizF : Option String) : Except String DFrame := do
  let df := dfOfRecords data
  let df := filterEqCol df "region" regionF
  let df := filterEqCol df "mainPoc" pocF
  let df ← filterPricing df pricingF
  pure (filterEqCol df "businessArea" bizF)

/-- The header line `to_csv` writes: the column names, comma-separated. -/
def csvHeader (df : DFrame) : String := String.intercalate "," df.cols

/-- Session invariant behind the role gate: a logged-out session dictionary
is empty (as at process start and after logout), and a readonly session never
has the settings surface open (the settings button is rendered for editors
only). -/
def ReadonlyInv (s : AppState) : Prop :=
  (isLoggedIn s = false → s.sess = [])
  ∧ (roleStr s.sess = "readonly" → settingsDialogOpen s = false)

/-- A stored demo project document (no `id` field: the identity lives outside
the document, as in the store). -/
def demoDoc : Doc :=
  [("supplierName", Value.s "Acme"), ("poRef", Value.s "PO-1"),
   ("firstContact", Value.time 1), ("mainPoc", Value.s "Kim"),
   ("region", Value.s "EMEA"), ("isNPI", Value.s "Yes"),
   ("businessArea", Value.s "External"), ("status", Value.s "Active"),
   ("quantities", Value.dict [("sensor", Value.dict [("qty", Value.n 5), ("bundled", Value.b false)])]),
   ("lastActivity", Value.time 2), ("legacyNote", Value.s "keep")]

/-- The demo project as the app receives it from a fetch, identity merged in. -/
def demoRow : Doc := withId demoDoc "p1"

def demoStore : Store := ⟨[("projects", [("p1", demoDoc)])], [], 0, 7⟩

def demoForm : ProjectForm :=
  ⟨"Acme", "PO-2", 3, "Kim", "EMEA", "Yes", "External", "Active",
   (5, false), (0, false), (0, false), (0, false), (0, false)⟩

def cexConfig : Config := ⟨["bob@x.com"], []⟩

def cexState0 : AppState := ⟨[], demoStore, emptyCache, 0⟩

/-- After Bob (absent from the role map, hence readonly) logs in. -/
def cexState1 : AppState := (step cexConfig cexState0 (Event.loginSubmit "bob@x.com" "pw")).1

/-- After the readonly user clicks the table View/Edit button on project `p1`. -/
def cexState2 : AppState := (step cexConfig cexState1 (Event.clickViewEditTable "p1")).1

/-- An editor session with the edit dialog open on project `p1`. -/
def editorState : AppState :=
  ⟨[("logged_in", Value.b true), ("user_email", Value.s "ed@x.com"),
    ("role", Value.s "editor"), ("show_project_dialog", Value.b true),
    ("editing_project", Value.dict demoRow)], demoStore, emptyCache, 0⟩

/-- An editor session with the add-project dialog open (empty editing target). -/
def editorNewState : AppState :=
  ⟨[("logged_in", Value.b true), ("user_email", Value.s "ed@x.com"),
    ("role", Value.s "editor"), ("show_project_dialog", Value.b true),
    ("editing_project", Value.dict [])], demoStore, emptyCache, 0⟩

/-- A state with a fresh cached collections snapshot (from a projects
fetch). -/
def cachedState : AppState := ⟨[], demoStore, ⟨some (0, [demoRow]), some (0, [])⟩, 10⟩

/-- A store with a second collection and comments under project `p2`, to
exhibit the shared cache entries. -/
def sharedStore : Store :=
  ⟨[("projects", [("p1", demoDoc)]), ("regions", [("r1", [("name", Value.s "EMEA")])])],
   [("p2", [("c1", [("text", Value.s "hi"), ("timestamp", Value.time 1)])])], 0, 7⟩

def sharedState0 : AppState := ⟨[], sharedStore, emptyCache, 0⟩

/-- After a querying fetch of the projects collection. -/
def sharedState1 : AppState := (fetch_collection sharedState0 "projects").2.1

/-- After a querying fetch of project `p1`'s (empty) comments. -/
def sharedCommState : AppState := (fetch_comments sharedState0 "p1").2.1

/-- A row whose `quantities` field is present but not a mapping. -/
def badRow : Doc := [("region", Value.s "EMEA"), ("quantities", Value.s "oops")]

def okDF : Except String DFrame → DFrame
  | Except.ok d => d
  | Except.error _ => ⟨[], []⟩

/-- The CSV export frame of the unfiltered demo view. -/
def demoExport : DFrame := okDF (exportView [demoRow] none none none none)

/-- The CSV export frame of the demo view under an active pricing filter. -/
def demoPricingExport : DFrame := okDF (exportView [demoRow] none none (some true) none)

/-! Association-list lemmas. -/

@[simp]
theorem aget_nil {α : Type} (k : String) : aget ([] : List (String × α)) k = none := rfl

theorem aget_cons {α : Type} (k : String) (v : α) (t : List (String × α)) (k2 : String) :
    aget ((k, v) :: t) k2 = if k == k2 then some v else aget t k2 := rfl

@[simp]
theorem aget_aset_self {α : Type} (m : List (String × α)) (k : String) (v : α) :
    aget (aset m k v) k = some v := by
  induction m with
  | nil => simp [aset, aget]
  | cons kv t ih =>
      obtain ⟨k2, v2⟩ := kv
      by_cases h : k2 = k
      · subst h
        simp [aset, aget]
      · simp [aset, aget, h, ih]

theorem aget_aset_ne {α : Type} (m : List (String × α)) (k : String) (v : α) (k2 : String)
    (h : k ≠ k2) : aget (aset m k v) k2 = aget m k2 := by
  induction m with
  | nil => simp [aset, aget, h]
  | cons kv t ih =>
      obtain ⟨k3, v3⟩ := kv
      by_cases h3 : k3 = k
      · subst h3
        simp [aset, aget, h]
      · by_cases h4 : k3 = k2
        · simp [aset, aget, h3, h4, Ne.symm h]
        · simp [aset, aget, h3, h4, ih]

theorem aget_append_some {α : Type} {A B : List (String × α)} {k : String} {v : α}
    (h : aget A k = some v) : aget (A ++ B) k = some v := by
  induction A with
  | nil => simp [aget] at h
  | cons kv t ih =>
      obtain ⟨k2, v2⟩ := kv
      by_cases h2 : k2 = k
      · simp only [aget, h2, beq_self_eq_true, if_true] at h
        simp [aget, h2, h]
      · simp only [aget, beq_iff_eq, if_neg h2] at h
        simp [aget, h2, ih h]

theorem aget_append_none {α : Type} {A : List (String × α)} (B : List (String × α)) {k : String}
    (h : aget A k = none) : aget (A ++ B) k = aget B k := by
  induction A with
  | nil => simp
  | cons kv t ih =>
      obtain ⟨k2, v2⟩ := kv
      by_cases h2 : k2 = k
      · simp [aget, h2] at h
      · simp only [aget, beq_iff_eq, if_neg h2] at h
        simp [aget, h2, ih h]

theorem any_key_eq_isSome {α : Type} (m : List (String × α)) (k : String) :
    (m.any (fun kv => kv.1 == k)) = (aget m k).isSome := by
  induction m with
  | nil => simp [aget]
  | cons kv t ih =>
      obtain ⟨k2, v2⟩ := kv
      by_cases h : k2 = k
      · simp [aget, h]
      · simp [aget, h, ih]

/-! Merge lemmas: looking a key up in a merged document. -/

theorem aget_map_merge (p : Doc) (old : Doc) (k : String) :
    aget (old.map (fun kv =>
      match aget p kv.1 with
      | some v => (kv.1, v)
      | none => kv)) k
    = match aget old k with
      | none => none
      | some w => some (match aget p k with | some v => v | none => w) := by
  induction old with
  | nil => simp [aget]
  | cons kv t ih =>
      obtain ⟨k0, w0⟩ := kv
      by_cases h : k0 = k
      · subst h
        cases hp : aget p k0 <;> simp [aget, hp]
      · cases hp : aget p k0 <;> simp [aget, h, hp, ih]

theorem aget_filter_not_in {old : Doc} (p : Doc) (k : String) (h : aget old k = none) :
    aget (p.filter (fun kv => !(old.any (fun kv2 => kv2.1 == kv.1)))) k = aget p k := by
  induction p with
  | nil => simp
  | cons kv t ih =>
      obtain ⟨k1, v1⟩ := kv
      by_cases h1 : k1 = k
      · subst h1
        have ho : (old.any (fun kv2 => kv2.1 == k1)) = false := by
          rw [any_key_eq_isSome, h]
          rfl
        simp [List.filter_cons, ho, aget]
      · cases hb : (old.any (fun kv2 => kv2.1 == k1)) <;>
          simp [List.filter_cons, hb, aget, h1, ih]

theorem aget_mergeFields (old p : Doc) (k : String) :
    aget (mergeFields old p) k
    = match aget p k with
      | some v => some v
      | none => aget old k := by
  unfold mergeFields
  cases ho : aget old k with
  | some w =>
      have hm := aget_map_merge p old k
      rw [ho] at hm
      cases hp : aget p k with
      | some v =>
          rw [hp] at hm
          simpa using aget_append_some hm
      | none =>
          rw [hp] at hm
          simpa using aget_append_some hm
  | none =>
      have hm := aget_map_merge p old k
      rw [ho] at hm
      rw [aget_append_none _ hm, aget_filter_not_in p k ho]
      cases hp : aget p k <;> simp

theorem aget_mergeFields_some {old p : Doc} {k : String} {v : Value}
    (h : aget p k = some v) : aget (mergeFields old p) k = some v := by
  rw [aget_mergeFields, h]

theorem aget_mergeFields_none {old p : Doc} {k : String}
    (h : aget p k = none) : aget (mergeFields old p) k = aget old k := by
  rw [aget_mergeFields, h]

theorem aget_map_replace {β : Type} {rows : List (String × β)} {i : String} (g : β → β) {old : β}
    (h : aget rows i = some old) :
    aget (rows.map (fun r => if r.1 == i then (r.1, g r.2) else r)) i = some (g old) := by
  induction rows with
  | nil => simp [aget] at h
  | cons r t ih =>
      obtain ⟨k0, w0⟩ := r
      rw [List.map_cons]
      by_cases h0 : k0 = i
      · subst h0
        rw [if_pos (by simp)]
        rw [aget_cons, if_pos (by simp)]
        rw [aget_cons, if_pos (by simp)] at h
        obtain rfl : w0 = old := Option.some.inj h
        rfl
      · rw [if_neg (by simpa using h0)]
        rw [aget_cons, if_neg (by simpa using h0)]
        rw [aget_cons, if_neg (by simpa using h0)] at h
        exact ih h

/-! Cache-path lemmas. -/

theorem fetch_collection_frame (s : AppState) (name : String) :
    ((fetch_collection s name).2.1).sess = s.sess
    ∧ ((fetch_collection s name).2.1).store = s.store
    ∧ ((fetch_collection s name).2.1).now = s.now
    ∧ ((fetch_collection s name).2.1).cache.comm = s.cache.comm := by
  unfold fetch_collection
  cases h : s.cache.coll with
  | none => simp
  | some tv =>
      obtain ⟨t, v⟩ := tv
      by_cases h2 : s.now - t < 60 <;> simp [h2]

theorem fetch_comments_frame (s : AppState) (pid : String) :
    ((fetch_comments s pid).2.1).sess = s.sess
    ∧ ((fetch_comments s pid).2.1).store = s.store
    ∧ ((fetch_comments s pid).2.1).now = s.now
    ∧ ((fetch_comments s pid).2.1).cache.coll = s.cache.coll := by
  unfold fetch_comments
  cases h : s.cache.comm with
  | none => simp
  | some tv =>
      obtain ⟨t, v⟩ := tv
      by_cases h2 : s.now - t < 30 <;> simp [h2]

theorem fetch_collection_hit {s : AppState} {name : String} {t : Nat} {v : List Doc}
    (h : s.cache.coll = some (t, v)) (h2 : s.now - t < 60) :
    fetch_collection s name = (v, s, false) := by
  unfold fetch_collection
  rw [h]
  simp [h2]

theorem fetch_comments_hit {s : AppState} {pid : String} {t : Nat} {v : List Doc}
    (h : s.cache.comm = some (t, v)) (h2 : s.now - t < 30) :
    fetch_comments s pid = (v, s, false) := by
  unfold fetch_comments
  rw [h]
  simp [h2]

theorem fetch_collection_queried {s : AppState} {name : String}
    (h : (fetch_collection s name).2.2 = true) :
    ((fetch_collection s name).2.1).cache.coll
      = some (s.now, (fetch_collection s name).1)
    ∧ ((fetch_collection s name).2.1).now = s.now := by
  unfold fetch_collection at h ⊢
  cases hc : s.cache.coll with
  | none => simp
  | some tv =>
      obtain ⟨t, v⟩ := tv
      rw [hc] at h
      by_cases h2 : s.now - t < 60
      · simp [h2] at h
      · simp [h2]

theorem fetch_comments_queried {s : AppState} {pid : String}
    (h : (fetch_comments s pid).2.2 = true) :
    ((fetch_comments s pid).2.1).cache.comm
      = some (s.now, (fetch_comments s pid).1)
    ∧ ((fetch_comments s pid).2.1).now = s.now := by
  unfold fetch_comments at h ⊢
  cases hc : s.cache.comm with
  | none => simp
  | some tv =>
      obtain ⟨t, v⟩ := tv
      rw [hc] at h
      by_cases h2 : s.now - t < 30
      · simp [h2] at h
      · simp [h2]

theorem fetch_collection_empty {s : AppState} (name : String) (h : s.cache = emptyCache) :
    (fetch_collection s name).1 = collRows s.store name
    ∧ (fetch_collection s name).2.2 = true := by
  unfold fetch_collection
  rw [h]
  simp [emptyCache, aget]

theorem fetch_comments_empty {s : AppState} (pid : String) (h : s.cache = emptyCache) :
    (fetch_comments s pid).1 = commentRows s.store pid
    ∧ (fetch_comments s pid).2.2 = true := by
  unfold fetch_comments
  rw [h]
  simp [emptyCache, aget]

/-! Logout empties the session dictionary. -/

theorem foldl_adel_all {ks : List String} :
    ∀ m : List (String × Value), (∀ kv ∈ m, kv.1 ∈ ks) → ks.foldl adel m = [] := by
  induction ks with
  | nil =>
      intro m hm
      cases m with
      | nil => rfl
      | cons kv t => exact absurd (hm kv (by simp)) (by simp)
  | cons k ks ih =>
      intro m hm
      simp only [List.foldl_cons]
      apply ih
      intro kv hkv
      have h2 := List.mem_filter.1 hkv
      have h3 := hm kv h2.1
      have h4 : ¬ kv.1 = k := by simpa using h2.2
      simpa using (List.mem_cons.1 h3).resolve_left h4

theorem logout_user_clears (m : List (String × Value)) : logout_user m = [] :=
  foldl_adel_all m (fun kv h => List.mem_map_of_mem Prod.fst h)

theorem fetch_collection_stale {s : AppState} {name : String} {t : Nat} {v : List Doc}
    (h : s.cache.coll = some (t, v)) (h2 : ¬ s.now - t < 60) :
    (fetch_collection s name).2.2 = true := by
  unfold fetch_collection
  rw [h]
  simp [h2]

/-! Handler frame lemmas. -/

theorem openProject_flag (s : AppState) (pid : String) : (openProject s pid).2 = false := by
  unfold openProject
  cases h : (fetch_collection s "projects").1.find? (fun d => valEqStr (aget d "id") pid) <;>
    simp [h]

theorem openProject_store (s : AppState) (pid : String) :
    ((openProject s pid).1).store = s.store := by
  unfold openProject
  cases h : (fetch_collection s "projects").1.find? (fun d => valEqStr (aget d "id") pid) <;>
    simp [h, (fetch_collection_frame s "projects").2.1]

theorem openProject_sess_keys (s : AppState) (pid k : String)
    (h1 : k ≠ "editing_project") (h2 : k ≠ "show_project_dialog") :
    aget ((openProject s pid).1).sess k = aget s.sess k := by
  unfold openProject
  cases h : (fetch_collection s "projects").1.find? (fun d => valEqStr (aget d "id") pid) with
  | none => simp [h, (fetch_collection_frame s "projects").1]
  | some d =>
      simp only [h]
      rw [aget_aset_ne _ _ _ _ (Ne.symm h2), aget_aset_ne _ _ _ _ (Ne.symm h1),
        (fetch_collection_frame s "projects").1]

theorem project_dialog_save_cases (s : AppState) (f : ProjectForm) :
    project_dialog_save s f = (s, false)
    ∨ ((project_dialog_save s f).2 = true
        ∧ ((project_dialog_save s f).1).cache = emptyCache
        ∧ ((project_dialog_save s f).1).sess = aset s.sess "show_project_dialog" (Value.b false)) := by
  unfold project_dialog_save
  split
  · exact Or.inl rfl
  · split
    · exact Or.inr ⟨rfl, rfl, rfl⟩
    · split
      · exact Or.inr ⟨rfl, rfl, rfl⟩
      · exact Or.inl rfl

theorem project_dialog_save_sess_keys (s : AppState) (f : ProjectForm) (k : String)
    (h : k ≠ "show_project_dialog") :
    aget ((project_dialog_save s f).1).sess k = aget s.sess k := by
  unfold project_dialog_save
  split
  · rfl
  · split
    · simp only
      rw [aget_aset_ne _ _ _ _ (Ne.symm h)]
    · split <;> simp only <;> try rfl
      rw [aget_aset_ne _ _ _ _ (Ne.symm h)]

theorem post_comment_sess (s : AppState) (t : String) :
    ((project_dialog_post_comment s t).1).sess = s.sess := by
  unfold project_dialog_post_comment
  split
  · rfl
  · split <;> first
    | rfl
    | (rename_i pid; by_cases h : (t == "") = true <;> simp [h])

theorem post_comment_cases (s : AppState) (t : String) :
    project_dialog_post_comment s t = (s, false)
    ∨ ((project_dialog_post_comment s t).2 = true
        ∧ ((project_dialog_post_comment s t).1).cache = emptyCache
        ∧ ((project_dialog_post_comment s t).1).sess = s.sess) := by
  unfold project_dialog_post_comment
  split
  · exact Or.inl rfl
  · split
    · split
      · exact Or.inl rfl
      · exact Or.inr ⟨rfl, rfl, rfl⟩
    · exact Or.inl rfl

theorem settings_delete_sess (s : AppState) (key item : String) :
    ((settings_delete s key item).1).sess = s.sess := by
  unfold settings_delete
  cases h : (fetch_collection s key).1.find? (fun d => valEqStr (aget d "name") item) with
  | none => simp [h, (fetch_collection_frame s key).1]
  | some d =>
      cases h2 : aget d "id" with
      | none => simp [h, h2, (fetch_collection_frame s key).1]
      | some v => cases v <;> simp [h, h2, (fetch_collection_frame s key).1]

theorem settings_delete_false {s : AppState} {key item : String}
    (h : (settings_delete s key item).2 = false) :
    ((settings_delete s key item).1).store = s.store := by
  unfold settings_delete at h ⊢
  cases hf : (fetch_collection s key).1.find? (fun d => valEqStr (aget d "name") item) with
  | none => simp [hf, (fetch_collection_frame s key).2.1]
  | some d =>
      cases h2 : aget d "id" with
      | none => simp [hf, h2, (fetch_collection_frame s key).2.1]
      | some v =>
          cases v <;> simp [hf, h2, (fetch_collection_frame s key).2.1] <;> simp [hf, h2] at h

theorem settings_delete_cache {s : AppState} {key item : String}
    (h : (settings_delete s key item).2 = true) :
    ((settings_delete s key item).1).cache = emptyCache := by
  unfold settings_delete at h ⊢
  cases hf : (fetch_collection s key).1.find? (fun d => valEqStr (aget d "name") item) with
  | none => simp [hf] at h
  | some d =>
      cases h2 : aget d "id" with
      | none => simp [hf, h2] at h
      | some v => cases v <;> simp [hf, h2] at h ⊢

theorem settings_add_sess (s : AppState) (key item : String) :
    ((settings_add s key item).1).sess = s.sess := by
  unfold settings_add
  split <;> rfl

theorem settings_add_cases (s : AppState) (key item : String) :
    settings_add s key item = (s, false)
    ∨ ((settings_add s key item).2 = true
        ∧ ((settings_add s key item).1).cache = emptyCache
        ∧ ((settings_add s key item).1).sess = s.sess) := by
  unfold settings_add
  split
  · exact Or.inl rfl
  · exact Or.inr ⟨rfl, rfl, rfl⟩

/-! Claim theorems. -/

/-- C7: logout clears every session field unconditionally: for any session
dictionary, the logout handler deletes every key, leaving the empty
dictionary of a fresh, never-authenticated session, in which every lookup
(login flag, identity, role, open-dialog and editing-target pointers) is
absent and the main page's login check fails, so re-authentication is
required. -/
theorem logout_resets_session (m : List (String × Value)) :
    logout_user m = []
    ∧ (∀ k, aget (logout_user m) k = none)
    ∧ truthy (aget (logout_user m) "logged_in") = false := by
  refine ⟨logout_user_clears m, ?_, ?_⟩
  · intro k
    rw [logout_user_clears m]
    rfl
  · rw [logout_user_clears m]
    rfl

/-- C9: a successful login resolves the session role as
`user_roles.get(email, "readonly")`: an identity absent from the static role
map gets exactly `readonly`, a mapped identity gets its mapped role, and the
session role is `editor` precisely when the map explicitly assigns
`editor`. -/
theorem login_role_defaults_readonly (cfg : Config) (s : AppState) (email pw : String)
    (hlog : isLoggedIn s = false) (hcred : cfg.credEmails.contains email = true) :
    (aget cfg.userRoles email = none →
      aget ((step cfg s (Event.loginSubmit email pw)).1).sess "role" = some (Value.s "readonly"))
    ∧ (∀ r, aget cfg.userRoles email = some r →
      aget ((step cfg s (Event.loginSubmit email pw)).1).sess "role" = some (Value.s r))
    ∧ (aget ((step cfg s (Event.loginSubmit email pw)).1).sess "role" = some (Value.s "editor")
        ↔ aget cfg.userRoles email = some "editor") := by
  have hstep : ((step cfg s (Event.loginSubmit email pw)).1).sess
      = aset (aset (aset s.sess "logged_in" (Value.b true)) "user_email" (Value.s email))
          "role" (Value.s ((aget cfg.userRoles email).getD "readonly")) := by
    show ((if isLoggedIn s then (s, false)
      else ({ s with sess := login_user cfg s.sess email }, false)).1).sess = _
    rw [hlog, if_neg (by simp)]
    show login_user cfg s.sess email = _
    unfold login_user
    rw [if_pos hcred]
  refine ⟨?_, ?_, ?_, ?_⟩
  · intro h
    rw [hstep, aget_aset_self, h]
    rfl
  · intro r h
    rw [hstep, aget_aset_self, h]
    rfl
  · intro h
    rw [hstep, aget_aset_self] at h
    have h2 : ((aget cfg.userRoles email).getD "readonly") = "editor" := by
      have h3 := Option.some.inj h
      exact Value.s.inj h3
    cases hm : aget cfg.userRoles email with
    | none =>
        rw [hm] at h2
        simp at h2
    | some r =>
        rw [hm] at h2
        simp only [Option.getD_some] at h2
        rw [h2]
  · intro h
    rw [hstep, aget_aset_self, h]
    rfl

/-- C10: submitting the comment form with empty text is a no-op in every
state: the whole application state is unchanged (no comment added, no
`lastActivity` touch, no cache invalidation) and no store write happens. -/
theorem empty_comment_is_noop (cfg : Config) (s : AppState) :
    step cfg s (Event.postComment "") = (s, false) := by
  show (if isLoggedIn s && projectDialogOpen s then project_dialog_post_comment s ""
    else (s, false)) = (s, false)
  cases hc : (isLoggedIn s && projectDialogOpen s) with
  | false => simp
  | true =>
      simp only [if_true]
      unfold project_dialog_post_comment
      split
      · rfl
      · split
        · rfl
        · rfl

/-- C5 (amended): both read paths are time-to-live caches whose windows, 60
time units for collections and 30 for comments, lie within the claimed 30-60
range, and the cached snapshot expires only by elapsed time, never by size;
but because the source prefixes the parameters with an underscore they are
excluded from the `st.cache_data` key, so each function holds one shared
snapshot rather than one per collection name or project identity: a call
within the freshness window returns the previously fetched snapshot
unchanged and without querying the store whatever argument it is given, a
second call after a querying call does so for any name or project id, and
from the window boundary on the store is queried again.  A collection fetch
never touches the comments snapshot, nor the other way round. -/
theorem fetch_ttl_cache :
    (∀ (s : AppState) (name : String) (t : Nat) (v : List Doc),
        s.cache.coll = some (t, v) → s.now - t < 60 →
        fetch_collection s name = (v, s, false))
    ∧ (∀ (s : AppState) (pid : String) (t : Nat) (v : List Doc),
        s.cache.comm = some (t, v) → s.now - t < 30 →
        fetch_comments s pid = (v, s, false))
    ∧ (∀ (s : AppState) (name name2 : String) (dt : Nat), dt < 60 →
        (fetch_collection s name).2.2 = true →
        fetch_collection (advance (fetch_collection s name).2.1 dt) name2
          = ((fetch_collection s name).1, advance (fetch_collection s name).2.1 dt, false))
    ∧ (∀ (s : AppState) (pid pid2 : String) (dt : Nat), dt < 30 →
        (fetch_comments s pid).2.2 = true →
        fetch_comments (advance (fetch_comments s pid).2.1 dt) pid2
          = ((fetch_comments s pid).1, advance (fetch_comments s pid).2.1 dt, false))
    ∧ (∀ (s : AppState) (name name2 : String) (dt : Nat), 60 ≤ dt →
        (fetch_collection s name).2.2 = true →
        (fetch_collection (advance (fetch_collection s name).2.1 dt) name2).2.2 = true)
    ∧ (∀ (s : AppState) (name : String),
        ((fetch_collection s name).2.1).cache.comm = s.cache.comm)
    ∧ (∀ (s : AppState) (pid : String),
        ((fetch_comments s pid).2.1).cache.coll = s.cache.coll) := by
  refine ⟨?_, ?_, ?_, ?_, ?_, ?_, ?_⟩
  · intro s name t v h h2
    exact fetch_collection_hit h h2
  · intro s pid t v h h2
    exact fetch_comments_hit h h2
  · intro s name name2 dt hdt hq
    have hq2 := fetch_collection_queried hq
    apply fetch_collection_hit (t := s.now)
    · exact hq2.1
    · show (advance (fetch_collection s name).2.1 dt).now - s.now < 60
      have hnow : (advance (fetch_collection s name).2.1 dt).now
          = ((fetch_collection s name).2.1).now + dt := rfl
      rw [hnow, hq2.2]
      omega
  · intro s pid pid2 dt hdt hq
    have hq2 := fetch_comments_queried hq
    apply fetch_comments_hit (t := s.now)
    · exact hq2.1
    · show (advance (fetch_comments s pid).2.1 dt).now - s.now < 30
      have hnow : (advance (fetch_comments s pid).2.1 dt).now
          = ((fetch_comments s pid).2.1).now + dt := rfl
      rw [hnow, hq2.2]
      omega
  · intro s name name2 dt hdt hq
    have hq2 := fetch_collection_queried hq
    apply fetch_collection_stale (t := s.now) (v := (fetch_collection s name).1)
    · exact hq2.1
    · show ¬ (advance (fetch_collection s name).2.1 dt).now - s.now < 60
      have hnow : (advance (fetch_collection s name).2.1 dt).now
          = ((fetch_collection s name).2.1).now + dt := rfl
      rw [hnow, hq2.2]
      omega
  · intro s name
    exact (fetch_collection_frame s name).2.2.2
  · intro s pid
    exact (fetch_comments_frame s pid).2.2.2

/-- C8: a record whose `quantities` field is missing or not a mapping never
raises in the quantity-based aggregations: its sensor quantity is exactly
zero, the bundled-pricing classifier marks it not-bundled, and the
group-by-region sensor sum treats it exactly like a record carrying an
explicit empty quantities mapping. -/
theorem malformed_quantities_contribute_zero (q : Option Value) (r : Doc) (rows : List Doc)
    (hq : ∀ d, q ≠ some (Value.dict d))
    (hr : ∀ d, aget r "quantities" ≠ some (Value.dict d)) :
    sensor_qty_of q = Except.ok 0
    ∧ has_bundled_of q = Except.ok false
    ∧ sensorsByRegion (r :: rows)
        = sensorsByRegion (aset r "quantities" (Value.dict []) :: rows) := by
  have hz : ∀ (x : Option Value), (∀ d, x ≠ some (Value.dict d)) →
      sensor_qty_of x = Except.ok 0 := by
    intro x hx
    cases x with
    | none => rfl
    | some v =>
        cases v <;> first
          | rfl
          | exact absurd rfl (hx _)
  have hb : ∀ (x : Option Value), (∀ d, x ≠ some (Value.dict d)) →
      has_bundled_of x = Except.ok false := by
    intro x hx
    cases x with
    | none => rfl
    | some v =>
        cases v <;> first
          | rfl
          | exact absurd rfl (hx _)
  have h1 : sensor_qty_of (aget r "quantities") = Except.ok 0 := hz _ hr
  have h2 : sensor_qty_of (aget (aset r "quantities" (Value.dict [])) "quantities")
      = Except.ok 0 := by
    rw [aget_aset_self]
    rfl
  have hreg : regionKeyOf (aset r "quantities" (Value.dict [])) = regionKeyOf r := by
    unfold regionKeyOf
    rw [aget_aset_ne _ _ _ _ (by decide)]
  refine ⟨hz q hq, hb q hq, ?_⟩
  unfold sensorsByRegion
  simp only [List.mapM_cons]
  rw [h1, h2, hreg]

theorem getColl_setMerge_found {st : Store} {name i : String} {d : Doc} {old : Doc}
    (h : aget (getColl st name) i = some old) :
    aget (getColl (setMergeDoc st name i d) name) i
      = some (mergeFields old (resolveSentinels st.now d)) := by
  have hany : (getColl st name).any (fun rr => rr.1 == i) = true := by
    rw [any_key_eq_isSome, h]
    rfl
  have hrows : getColl (setMergeDoc st name i d) name
      = (getColl st name).map (fun rr =>
          if rr.1 == i then (rr.1, mergeFields rr.2 (resolveSentinels st.now d)) else rr) := by
    show (aget (aset st.collections name
        (if ((getColl st name).any (fun rr => rr.1 == i)) = true
          then (getColl st name).map (fun rr =>
            if rr.1 == i then (rr.1, mergeFields rr.2 (resolveSentinels st.now d)) else rr)
          else getColl st name ++ [(i, resolveSentinels st.now d)])) name).getD [] = _
    rw [hany, if_pos rfl, aget_aset_self]
    rfl
  rw [hrows]
  exact aget_map_replace (fun x => mergeFields x (resolveSentinels st.now d)) h

theorem getColl_update_found {st : Store} {name i : String} {d : Doc} {old : Doc}
    (h : aget (getColl st name) i = some old) :
    aget (getColl (updateDocF st name i d) name) i
      = some (mergeFields old (resolveSentinels st.now d)) := by
  have hrows : getColl (updateDocF st name i d) name
      = (getColl st name).map (fun rr =>
          if rr.1 == i then (rr.1, mergeFields rr.2 (resolveSentinels st.now d)) else rr) := by
    show (aget (aset st.collections name
        ((getColl st name).map (fun rr =>
          if rr.1 == i then (rr.1, mergeFields rr.2 (resolveSentinels st.now d)) else rr)))
        name).getD [] = _
    rw [aget_aset_self]
    rfl
  rw [hrows]
  exact aget_map_replace (fun x => mergeFields x (resolveSentinels st.now d)) h

theorem getColl_addDoc {st : Store} {name : String} {d : Doc}
    (h : aget (getColl st name) (newId st) = none) :
    aget (getColl (addDoc st name d) name) (newId st) = some (resolveSentinels st.now d) := by
  have hrows : getColl (addDoc st name d) name
      = getColl st name ++ [(newId st, resolveSentinels st.now d)] := by
    show (aget (aset st.collections name
        (getColl st name ++ [(newId st, resolveSentinels st.now d)])) name).getD [] = _
    rw [aget_aset_self]
    rfl
  rw [hrows, aget_append_none _ h, aget_cons]
  simp

/-- C6: saving the dialog over an existing project is a merge-write through
set-with-merge: the stored document becomes the merge of the old document
with the resolved payload; every key the payload carries takes the payload's
value, and every stored key absent from the payload keeps its old value
untouched. -/
theorem project_update_is_merge (cfg : Config) (s : AppState) (f : ProjectForm)
    (pid : String) (old : Doc)
    (hlog : isLoggedIn s = true) (hopen : projectDialogOpen s = true)
    (hrole : (roleStr s.sess == "readonly") = false)
    (hid : aget (editingProject s) "id" = some (Value.s pid))
    (hold : aget (getColl s.store "projects") pid = some old) :
    aget (getColl ((step cfg s (Event.saveProject f)).1).store "projects") pid
      = some (mergeFields old (resolveSentinels s.store.now (buildPayload f)))
    ∧ (∀ k v, aget (resolveSentinels s.store.now (buildPayload f)) k = some v →
        aget (mergeFields old (resolveSentinels s.store.now (buildPayload f))) k = some v)
    ∧ (∀ k, aget (resolveSentinels s.store.now (buildPayload f)) k = none →
        aget (mergeFields old (resolveSentinels s.store.now (buildPayload f))) k = aget old k) := by
  have hnew : editingIsNew s = false := by
    unfold editingIsNew
    rw [hid]
  have hstore : ((step cfg s (Event.saveProject f)).1).store
      = setMergeDoc s.store "projects" pid (buildPayload f) := by
    show ((if isLoggedIn s && projectDialogOpen s then project_dialog_save s f
      else (s, false)).1).store = _
    rw [hlog, hopen]
    show ((project_dialog_save s f).1).store = _
    unfold project_dialog_save
    rw [hrole, hnew, hid]
    rfl
  refine ⟨?_, ?_, ?_⟩
  · rw [hstore]
    exact getColl_setMerge_found hold
  · intro k v h
    exact aget_mergeFields_some h
  · intro k h
    exact aget_mergeFields_none h

/-- C4: project creates and updates carry `lastActivity` as the
server-timestamp sentinel - never a client clock value - and the store
resolves it to its own current server time; adding a comment also touches the
parent project's `lastActivity` with the server's current time. -/
theorem lastActivity_is_server_time :
    (∀ f, aget (buildPayload f) "lastActivity" = some Value.serverTimestamp)
    ∧ (∀ (cfg : Config) (s : AppState) (f : ProjectForm),
        isLoggedIn s = true → projectDialogOpen s = true →
        (roleStr s.sess == "readonly") = false → editingIsNew s = true →
        aget (getColl s.store "projects") (newId s.store) = none →
        aget (getColl ((step cfg s (Event.saveProject f)).1).store "projects") (newId s.store)
          = some (resolveSentinels s.store.now (buildPayload f))
        ∧ aget (resolveSentinels s.store.now (buildPayload f)) "lastActivity"
            = some (Value.time s.store.now))
    ∧ (∀ (cfg : Config) (s : AppState) (f : ProjectForm) (pid : String) (old : Doc),
        isLoggedIn s = true → projectDialogOpen s = true →
        (roleStr s.sess == "readonly") = false →
        aget (editingProject s) "id" = some (Value.s pid) →
        aget (getColl s.store "projects") pid = some old →
        ((aget (getColl ((step cfg s (Event.saveProject f)).1).store "projects") pid).bind
            (fun d => aget d "lastActivity")) = some (Value.time s.store.now))
    ∧ (∀ (cfg : Config) (s : AppState) (text pid : String) (old : Doc),
        isLoggedIn s = true → projectDialogOpen s = true →
        aget (editingProject s) "id" = some (Value.s pid) → (text == "") = false →
        aget (getColl s.store "projects") pid = some old →
        ((aget (getColl ((step cfg s (Event.postComment text)).1).store "projects") pid).bind
            (fun d => aget d "lastActivity")) = some (Value.time s.store.now)) := by
  refine ⟨?_, ?_, ?_, ?_⟩
  · intro f
    rfl
  · intro cfg s f hlog hopen hrole hnew hfresh
    have hstore : ((step cfg s (Event.saveProject f)).1).store
        = addDoc s.store "projects" (buildPayload f) := by
      show ((if isLoggedIn s && projectDialogOpen s then project_dialog_save s f
        else (s, false)).1).store = _
      rw [hlog, hopen]
      show ((project_dialog_save s f).1).store = _
      unfold project_dialog_save
      rw [hrole, hnew]
      rfl
    refine ⟨?_, ?_⟩
    · rw [hstore]
      exact getColl_addDoc hfresh
    · rfl
  · intro cfg s f pid old hlog hopen hrole hid hold
    have hnew : editingIsNew s = false := by
      unfold editingIsNew
      rw [hid]
    have hstore : ((step cfg s (Event.saveProject f)).1).store
        = setMergeDoc s.store "projects" pid (buildPayload f) := by
      show ((if isLoggedIn s && projectDialogOpen s then project_dialog_save s f
        else (s, false)).1).store = _
      rw [hlog, hopen]
      show ((project_dialog_save s f).1).store = _
      unfold project_dialog_save
      rw [hrole, hnew, hid]
      rfl
    rw [hstore, getColl_setMerge_found hold]
    show aget (mergeFields old (resolveSentinels s.store.now (buildPayload f))) "lastActivity"
      = some (Value.time s.store.now)
    exact aget_mergeFields_some rfl
  · intro cfg s text pid old hlog hopen hid htext hold
    have hnew : editingIsNew s = false := by
      unfold editingIsNew
      rw [hid]
    have hstore : ((step cfg s (Event.postComment text)).1).store
        = updateDocF (addCommentDoc s.store pid
            [("text", Value.s text), ("user", (aget s.sess "user_email").getD Value.null),
             ("timestamp", Value.serverTimestamp)])
            "projects" pid [("lastActivity", Value.serverTimestamp)] := by
      show ((if isLoggedIn s && projectDialogOpen s then project_dialog_post_comment s text
        else (s, false)).1).store = _
      rw [hlog, hopen]
      show ((project_dialog_post_comment s text).1).store = _
      unfold project_dialog_post_comment
      rw [hnew, hid, htext]
      rfl
    have hold2 : aget (getColl (addCommentDoc s.store pid
        [("text", Value.s text), ("user", (aget s.sess "user_email").getD Value.null),
         ("timestamp", Value.serverTimestamp)]) "projects") pid = some old := hold
    rw [hstore, getColl_update_found hold2]
    show aget (mergeFields old _) "lastActivity" = some (Value.time s.store.now)
    exact aget_mergeFields_some rfl

/-- C3: every event that performs a document-store write leaves the read
cache completely empty - every collection snapshot and every comments
snapshot is dropped, not only the written key - so a read of any collection
or any comments list issued right after the write re-queries the store and
returns its fresh contents. -/
theorem write_clears_whole_cache (cfg : Config) (s : AppState) (e : Event)
    (h : (step cfg s e).2 = true) :
    ((step cfg s e).1).cache = emptyCache
    ∧ (∀ name, (fetch_collection (step cfg s e).1 name).1
        = collRows ((step cfg s e).1).store name)
    ∧ (∀ pid, (fetch_comments (step cfg s e).1 pid).1
        = commentRows ((step cfg s e).1).store pid) := by
  have hc : ((step cfg s e).1).cache = emptyCache := by
    cases e with
    | tick dc ds => simp [step] at h
    | loginSubmit email pw =>
        simp only [step] at h
        split at h <;> simp at h
    | clickLogout =>
        simp only [step] at h
        split at h <;> simp at h
    | clickAddProject =>
        simp only [step] at h
        split at h <;> simp at h
    | clickSettings =>
        simp only [step] at h
        split at h <;> simp at h
    | closeProjectDialog =>
        simp only [step] at h
        split at h <;> simp at h
    | closeSettingsDialog =>
        simp only [step] at h
        split at h <;> simp at h
    | clickEditGrid pid =>
        simp only [step] at h
        split at h
        · rw [openProject_flag] at h
          simp at h
        · simp at h
    | clickViewEditTable pid =>
        simp only [step] at h
        split at h
        · rw [openProject_flag] at h
          simp at h
        · simp at h
    | saveProject f =>
        by_cases hcond : (isLoggedIn s && projectDialogOpen s) = true
        · simp only [step, if_pos hcond] at h ⊢
          rcases project_dialog_save_cases s f with heq | ⟨_, hcache, _⟩
          · rw [heq] at h
            simp at h
          · exact hcache
        · simp only [step, if_neg hcond] at h
          simp at h
    | postComment text =>
        by_cases hcond : (isLoggedIn s && projectDialogOpen s) = true
        · simp only [step, if_pos hcond] at h ⊢
          rcases post_comment_cases s text with heq | ⟨_, hcache, _⟩
          · rw [heq] at h
            simp at h
          · exact hcache
        · simp only [step, if_neg hcond] at h
          simp at h
    | clickDeleteLookup key item =>
        by_cases hcond : (isLoggedIn s && !projectDialogOpen s && settingsDialogOpen s
            && lookupKeys.contains key) = true
        · simp only [step, if_pos hcond] at h ⊢
          exact settings_delete_cache h
        · simp only [step, if_neg hcond] at h
          simp at h
    | submitAddLookup key item =>
        by_cases hcond : (isLoggedIn s && !projectDialogOpen s && settingsDialogOpen s
            && lookupKeys.contains key) = true
        · simp only [step, if_pos hcond] at h ⊢
          rcases settings_add_cases s key item with heq | ⟨_, hcache, _⟩
          · rw [heq] at h
            simp at h
          · exact hcache
        · simp only [step, if_neg hcond] at h
          simp at h
  refine ⟨hc, ?_, ?_⟩
  · intro name
    exact (fetch_collection_empty name hc).1
  · intro pid
    exact (fetch_comments_empty pid hc).1

/-! Invariant helpers for the role gate. -/

theorem inv_of_sess_eq {s s2 : AppState} (hInv : ReadonlyInv s) (h : s2.sess = s.sess) :
    ReadonlyInv s2 := by
  constructor
  · intro hf
    unfold isLoggedIn at hf
    rw [h] at hf
    rw [h]
    exact hInv.1 hf
  · intro hro
    rw [h] at hro
    have h2 := hInv.2 hro
    unfold settingsDialogOpen at h2 ⊢
    rw [h]
    exact h2

theorem inv_of_lookups {s s2 : AppState} (hInv : ReadonlyInv s) (hl : isLoggedIn s = true)
    (h1 : aget s2.sess "logged_in" = aget s.sess "logged_in")
    (h2 : aget s2.sess "role" = aget s.sess "role")
    (h3 : aget s2.sess "show_settings_dialog" = aget s.sess "show_settings_dialog") :
    ReadonlyInv s2 := by
  constructor
  · intro hf
    unfold isLoggedIn at hf hl
    rw [h1, hl] at hf
    simp at hf
  · intro hro
    unfold roleStr at hro
    rw [h2] at hro
    have h4 := hInv.2 hro
    unfold settingsDialogOpen at h4 ⊢
    rw [h3]
    exact h4

theorem inv_of_editor {s2 : AppState} (hl : isLoggedIn s2 = true)
    (hr : roleStr s2.sess = "editor") : ReadonlyInv s2 := by
  constructor
  · intro hf
    rw [hl] at hf
    simp at hf
  · intro hro
    rw [hr] at hro
    simp at hro

theorem inv_of_empty {s2 : AppState} (h : s2.sess = []) : ReadonlyInv s2 := by
  constructor
  · intro _
    exact h
  · intro _
    unfold settingsDialogOpen
    rw [h]
    rfl

theorem inv_login_empty (cfg : Config) (email : String) (s2 : AppState)
    (h : s2.sess = login_user cfg [] email) : ReadonlyInv s2 := by
  unfold login_user at h
  by_cases hc : cfg.credEmails.contains email = true
  · rw [if_pos hc] at h
    constructor
    · intro hf
      unfold isLoggedIn at hf
      rw [h, aget_aset_ne _ _ _ _ (by decide), aget_aset_ne _ _ _ _ (by decide),
        aget_aset_self] at hf
      simp [truthy] at hf
    · intro _
      unfold settingsDialogOpen
      rw [h, aget_aset_ne _ _ _ _ (by decide), aget_aset_ne _ _ _ _ (by decide),
        aget_aset_ne _ _ _ _ (by decide)]
      rfl
  · rw [if_neg hc] at h
    exact inv_of_empty h

/-- C1 (amended): the readonly write boundary, minus the add-comment hole.
Starting from an empty session, the invariant `ReadonlyInv` holds and is
preserved by every interaction; under it, a session whose role is `readonly`
can never trigger a store write by any event other than posting a comment:
project save is role-checked at the write boundary itself, the settings
surface (the only path to lookup-entry writes) never opens for a readonly
session, and no delete-comment operation exists.  An event whose write flag
is false leaves every document of the store untouched. -/
theorem readonly_write_boundary :
    (∀ (store : Store) (cache : Cache) (n : Nat), ReadonlyInv ⟨[], store, cache, n⟩)
    ∧ (∀ (cfg : Config) (s : AppState) (e : Event), ReadonlyInv s →
        ReadonlyInv ((step cfg s e).1))
    ∧ (∀ (cfg : Config) (s : AppState) (e : Event), ReadonlyInv s →
        roleStr s.sess = "readonly" → (∀ t, e ≠ Event.postComment t) →
        (step cfg s e).2 = false)
    ∧ (∀ (cfg : Config) (s : AppState) (e : Event), (step cfg s e).2 = false →
        ((step cfg s e).1).store.collections = s.store.collections
        ∧ ((step cfg s e).1).store.comments = s.store.comments) := by
  refine ⟨?_, ?_, ?_, ?_⟩
  · intro store cache n
    exact ⟨fun _ => rfl, fun _ => rfl⟩
  · intro cfg s e hInv
    cases e with
    | tick dc ds => exact inv_of_sess_eq hInv rfl
    | loginSubmit email pw =>
        simp only [step]
        by_cases hl : isLoggedIn s = true
        · rw [if_pos hl]
          exact hInv
        · rw [if_neg hl]
          have hl2 : isLoggedIn s = false := by
            cases hb : isLoggedIn s with
            | false => rfl
            | true => exact absurd hb hl
          have hemp : s.sess = [] := hInv.1 hl2
          refine inv_login_empty cfg email _ ?_
          show login_user cfg s.sess email = login_user cfg [] email
          rw [hemp]
    | clickLogout =>
        simp only [step]
        by_cases hl : isLoggedIn s = true
        · rw [if_pos hl]
          exact inv_of_empty (logout_user_clears s.sess)
        · rw [if_neg hl]
          exact hInv
    | clickAddProject =>
        simp only [step]
        by_cases hcond : (isLoggedIn s && (roleStr s.sess == "editor")) = true
        · rw [if_pos hcond]
          simp only [Bool.and_eq_true, beq_iff_eq] at hcond
          refine inv_of_editor ?_ ?_
          · unfold isLoggedIn
            rw [aget_aset_ne _ _ _ _ (by decide), aget_aset_ne _ _ _ _ (by decide)]
            exact hcond.1
          · unfold roleStr
            rw [aget_aset_ne _ _ _ _ (by decide), aget_aset_ne _ _ _ _ (by decide)]
            exact hcond.2
        · rw [if_neg hcond]
          exact hInv
    | clickSettings =>
        simp only [step]
        by_cases hcond : (isLoggedIn s && (roleStr s.sess == "editor")) = true
        · rw [if_pos hcond]
          simp only [Bool.and_eq_true, beq_iff_eq] at hcond
          refine inv_of_editor ?_ ?_
          · unfold isLoggedIn
            rw [aget_aset_ne _ _ _ _ (by decide)]
            exact hcond.1
          · unfold roleStr
            rw [aget_aset_ne _ _ _ _ (by decide)]
            exact hcond.2
        · rw [if_neg hcond]
          exact hInv
    | closeProjectDialog =>
        simp only [step]
        by_cases hcond : (isLoggedIn s && projectDialogOpen s) = true
        · rw [if_pos hcond]
          simp only [Bool.and_eq_true] at hcond
          exact inv_of_lookups hInv hcond.1
            (aget_aset_ne _ _ _ _ (by decide)) (aget_aset_ne _ _ _ _ (by decide))
            (aget_aset_ne _ _ _ _ (by decide))
        · rw [if_neg hcond]
          exact hInv
    | closeSettingsDialog =>
        simp only [step]
        by_cases hcond : (isLoggedIn s && !projectDialogOpen s && settingsDialogOpen s) = true
        · rw [if_pos hcond]
          simp only [Bool.and_eq_true] at hcond
          constructor
          · intro hf
            unfold isLoggedIn at hf
            rw [aget_aset_ne _ _ _ _ (by decide)] at hf
            have hl := hcond.1.1
            unfold isLoggedIn at hl
            rw [hl] at hf
            simp at hf
          · intro _
            unfold settingsDialogOpen
            rw [aget_aset_self]
            rfl
        · rw [if_neg hcond]
          exact hInv
    | clickEditGrid pid =>
        simp only [step]
        by_cases hcond : (isLoggedIn s && !projectDialogOpen s && !settingsDialogOpen s
            && (roleStr s.sess == "editor")) = true
        · rw [if_pos hcond]
          simp only [Bool.and_eq_true, beq_iff_eq] at hcond
          refine inv_of_editor ?_ ?_
          · unfold isLoggedIn
            rw [openProject_sess_keys s pid _ (by decide) (by decide)]
            exact hcond.1.1.1
          · unfold roleStr
            rw [openProject_sess_keys s pid _ (by decide) (by decide)]
            exact hcond.2
        · rw [if_neg hcond]
          exact hInv
    | clickViewEditTable pid =>
        simp only [step]
        by_cases hcond : (isLoggedIn s && !projectDialogOpen s && !settingsDialogOpen s) = true
        · rw [if_pos hcond]
          simp only [Bool.and_eq_true] at hcond
          exact inv_of_lookups hInv hcond.1.1
            (openProject_sess_keys s pid _ (by decide) (by decide))
            (openProject_sess_keys s pid _ (by decide) (by decide))
            (openProject_sess_keys s pid _ (by decide) (by decide))
        · rw [if_neg hcond]
          exact hInv
    | saveProject f =>
        simp only [step]
        by_cases hcond : (isLoggedIn s && projectDialogOpen s) = true
        · rw [if_pos hcond]
          simp only [Bool.and_eq_true] at hcond
          rcases project_dialog_save_cases s f with heq | ⟨_, _, hsess⟩
          · rw [heq]
            exact hInv
          · refine inv_of_lookups hInv hcond.1 ?_ ?_ ?_ <;>
              rw [hsess, aget_aset_ne _ _ _ _ (by decide)]
        · rw [if_neg hcond]
          exact hInv
    | postComment text =>
        simp only [step]
        by_cases hcond : (isLoggedIn s && projectDialogOpen s) = true
        · rw [if_pos hcond]
          rcases post_comment_cases s text with heq | ⟨_, _, hsess⟩
          · rw [heq]
            exact hInv
          · exact inv_of_sess_eq hInv hsess
        · rw [if_neg hcond]
          exact hInv
    | clickDeleteLookup key item =>
        simp only [step]
        by_cases hcond : (isLoggedIn s && !projectDialogOpen s && settingsDialogOpen s
            && lookupKeys.contains key) = true
        · rw [if_pos hcond]
          exact inv_of_sess_eq hInv (settings_delete_sess s key item)
        · rw [if_neg hcond]
          exact hInv
    | submitAddLookup key item =>
        simp only [step]
        by_cases hcond : (isLoggedIn s && !projectDialogOpen s && settingsDialogOpen s
            && lookupKeys.contains key) = true
        · rw [if_pos hcond]
          rcases settings_add_cases s key item with heq | ⟨_, _, hsess⟩
          · rw [heq]
            exact hInv
          · exact inv_of_sess_eq hInv hsess
        · rw [if_neg hcond]
          exact hInv
  · intro cfg s e hInv hro hne
    cases e with
    | tick dc ds => rfl
    | loginSubmit email pw =>
        simp only [step]
        split <;> rfl
    | clickLogout =>
        simp only [step]
        split <;> rfl
    | clickAddProject =>
        simp only [step]
        split <;> rfl
    | clickSettings =>
        simp only [step]
        split <;> rfl
    | closeProjectDialog =>
        simp only [step]
        split <;> rfl
    | closeSettingsDialog =>
        simp only [step]
        split <;> rfl
    | clickEditGrid pid =>
        simp only [step]
        split
        · exact openProject_flag s pid
        · rfl
    | clickViewEditTable pid =>
        simp only [step]
        split
        · exact openProject_flag s pid
        · rfl
    | saveProject f =>
        simp only [step]
        split
        · unfold project_dialog_save
          rw [hro]
          simp
        · rfl
    | postComment text => exact absurd rfl (hne text)
    | clickDeleteLookup key item =>
        have hset : settingsDialogOpen s = false := hInv.2 hro
        simp only [step]
        rw [hset]
        simp
    | submitAddLookup key item =>
        have hset : settingsDialogOpen s = false := hInv.2 hro
        simp only [step]
        rw [hset]
        simp
  · intro cfg s e h
    cases e with
    | tick dc ds => exact ⟨rfl, rfl⟩
    | loginSubmit email pw =>
        simp only [step]
        split <;> exact ⟨rfl, rfl⟩
    | clickLogout =>
        simp only [step]
        split <;> exact ⟨rfl, rfl⟩
    | clickAddProject =>
        simp only [step]
        split <;> exact ⟨rfl, rfl⟩
    | clickSettings =>
        simp only [step]
        split <;> exact ⟨rfl, rfl⟩
    | closeProjectDialog =>
        simp only [step]
        split <;> exact ⟨rfl, rfl⟩
    | closeSettingsDialog =>
        simp only [step]
        split <;> exact ⟨rfl, rfl⟩
    | clickEditGrid pid =>
        simp only [step]
        split
        · exact ⟨by rw [openProject_store], by rw [openProject_store]⟩
        · exact ⟨rfl, rfl⟩
    | clickViewEditTable pid =>
        simp only [step]
        split
        · exact ⟨by rw [openProject_store], by rw [openProject_store]⟩
        · exact ⟨rfl, rfl⟩
    | saveProject f =>
        by_cases hcond : (isLoggedIn s && projectDialogOpen s) = true
        · simp only [step, if_pos hcond] at h ⊢
          rcases project_dialog_save_cases s f with heq | ⟨hflag, _, _⟩
          · rw [heq]
            exact ⟨rfl, rfl⟩
          · rw [hflag] at h
            simp at h
        · simp [step, hcond]
    | postComment text =>
        by_cases hcond : (isLoggedIn s && projectDialogOpen s) = true
        · simp only [step, if_pos hcond] at h ⊢
          rcases post_comment_cases s text with heq | ⟨hflag, _, _⟩
          · rw [heq]
            exact ⟨rfl, rfl⟩
          · rw [hflag] at h
            simp at h
        · simp [step, hcond]
    | clickDeleteLookup key item =>
        by_cases hcond : (isLoggedIn s && !projectDialogOpen s && settingsDialogOpen s
            && lookupKeys.contains key) = true
        · simp only [step, if_pos hcond] at h ⊢
          have hst := settings_delete_false h
          exact ⟨by rw [hst], by rw [hst]⟩
        · simp only [step]
          rw [if_neg hcond]
          exact ⟨rfl, rfl⟩
    | submitAddLookup key item =>
        by_cases hcond : (isLoggedIn s && !projectDialogOpen s && settingsDialogOpen s
            && lookupKeys.contains key) = true
        · simp only [step, if_pos hcond] at h ⊢
          rcases settings_add_cases s key item with heq | ⟨hflag, _, _⟩
          · rw [heq]
            exact ⟨rfl, rfl⟩
          · rw [hflag] at h
            simp at h
        · simp only [step]
          rw [if_neg hcond]
          exact ⟨rfl, rfl⟩

theorem filterEqCol_cols (df : DFrame) (c : String) (v : Option String) :
    (filterEqCol df c v).cols = df.cols := by
  cases v <;> rfl

theorem addBundledCol_cols {df df2 : DFrame} (h : addBundledCol df = Except.ok df2) :
    df2.cols = if df.cols.contains "has_bundled" then df.cols
      else df.cols ++ ["has_bundled"] := by
  unfold addBundledCol at h
  cases hm : df.rows.mapM (fun r => do
      let hb ← has_bundled_of (aget r "quantities")
      pure (aset r "has_bundled" (Value.b hb))) with
  | error e =>
      rw [hm] at h
      have h3 : (Except.error e : Except String DFrame) = Except.ok df2 := h
      exact Except.noConfusion h3
  | ok rows2 =>
      rw [hm] at h
      have h3 : Except.ok (⟨if df.cols.contains "has_bundled" then df.cols
          else df.cols ++ ["has_bundled"], rows2⟩ : DFrame) = Except.ok df2 := h
      have h4 := Except.ok.inj h3
      rw [← h4]

theorem filterPricing_cols {df df2 : DFrame} {pf : Option Bool}
    (h : filterPricing df pf = Except.ok df2) :
    df2.cols = (if pf.isSome then (if df.cols.contains "has_bundled" then df.cols
      else df.cols ++ ["has_bundled"]) else df.cols) := by
  cases pf with
  | none =>
      have h2 : Except.ok df = Except.ok df2 := h
      rw [← Except.ok.inj h2]
      rfl
  | some b =>
      unfold filterPricing at h
      cases hib : addBundledCol df with
      | error e =>
          rw [hib] at h
          have h3 : (Except.error e : Except String DFrame) = Except.ok df2 := h
          exact Except.noConfusion h3
      | ok dfb =>
          rw [hib] at h
          have h3 : Except.ok ({ dfb with
              rows := dfb.rows.filter (fun r => valEqBool (aget r "has_bundled") b) })
              = Except.ok df2 := h
          rw [← Except.ok.inj h3]
          show dfb.cols = _
          rw [addBundledCol_cols hib]
          rfl

/-- C2 (amended): the CSV export of a filtered project view writes every
column of the underlying frame - the union of the record keys in order of
first appearance, so `id`, `quantities` and `lastActivity` are included
whenever the records carry them - dropping none; when the pricing filter is
active the derived `has_bundled` column is appended as well. -/
theorem csv_export_keeps_all_columns (data : List Doc) (regionF pocF : Option String)
    (pricingF : Option Bool) (bizF : Option String) (df : DFrame)
    (h : exportView data regionF pocF pricingF bizF = Except.ok df) :
    (pricingF = none → df.cols = dfCols data)
    ∧ (∀ b, pricingF = some b →
        df.cols = (if (dfCols data).contains "has_bundled" then dfCols data
          else dfCols data ++ ["has_bundled"])) := by
  have hunfold : exportView data regionF pocF pricingF bizF
      = (filterPricing (filterEqCol (filterEqCol (dfOfRecords data) "region" regionF)
          "mainPoc" pocF) pricingF) >>=
        (fun dfp => pure (filterEqCol dfp "businessArea" bizF)) := rfl
  rw [hunfold] at h
  cases hfp : filterPricing (filterEqCol (filterEqCol (dfOfRecords data) "region" regionF)
      "mainPoc" pocF) pricingF with
  | error e =>
      rw [hfp] at h
      have h3 : (Except.error e : Except String DFrame) = Except.ok df := h
      exact Except.noConfusion h3
  | ok dfp =>
      rw [hfp] at h
      have h3 : Except.ok (filterEqCol dfp "businessArea" bizF) = Except.ok df := h
      have h4 := Except.ok.inj h3
      constructor
      · intro hp
        subst hp
        rw [← h4, filterEqCol_cols, filterPricing_cols hfp, filterEqCol_cols, filterEqCol_cols]
        rfl
      · intro b hp
        subst hp
        rw [← h4, filterEqCol_cols, filterPricing_cols hfp, filterEqCol_cols, filterEqCol_cols]
        rfl

/-- C1 counterexample: from a fresh session, Bob logs in (absent from the
role map, so his role is `readonly`), opens project `p1` through the table's
View/Edit button - which has no role gate - and posts a comment: the store
write executes and a comment document appears.  A readonly session can thus
execute a write, contrary to the claim. -/
theorem readonly_can_post_comment :
    roleStr cexState2.sess = "readonly"
    ∧ (step cexConfig cexState2 (Event.postComment "hi")).2 = true
    ∧ ((aget ((step cexConfig cexState2 (Event.postComment "hi")).1).store.comments "p1").getD
        []).length = 1
    ∧ ((aget cexState2.store.comments "p1").getD []).length = 0 :=
  ⟨rfl, rfl, rfl, rfl⟩

/-- C1 witness: in the reachable readonly state, attempting the project-save
event directly performs no store write. -/
theorem readonly_write_boundary_witness :
    (step cexConfig cexState2 (Event.saveProject demoForm)).2 = false := by
  have hInv : ReadonlyInv cexState2 := by
    constructor
    · intro h
      exact absurd h (by decide)
    · intro _
      decide
  exact readonly_write_boundary.2.2.1 cexConfig cexState2 (Event.saveProject demoForm) hInv
    rfl (fun t h => Event.noConfusion h)

/-- C2 counterexample: on a concrete unfiltered project view the exported
CSV columns do contain `id`, `quantities` and `lastActivity`, which the
claim says are excluded. -/
theorem csv_export_contains_excluded_columns :
    demoExport.cols.contains "id" = true
    ∧ demoExport.cols.contains "quantities" = true
    ∧ demoExport.cols.contains "lastActivity" = true :=
  ⟨rfl, rfl, rfl⟩

/-- C2 witness: with an active pricing filter, the demo export's columns are
the full frame columns plus the appended `has_bundled`. -/
theorem csv_export_keeps_all_columns_witness :
    demoPricingExport.cols = (if (dfCols [demoRow]).contains "has_bundled" then dfCols [demoRow]
      else dfCols [demoRow] ++ ["has_bundled"]) :=
  (csv_export_keeps_all_columns [demoRow] none none (some true) none demoPricingExport rfl).2
    true rfl

/-- C3 witness: an editor saving the edit dialog performs a write and leaves
the read cache empty. -/
theorem write_clears_whole_cache_witness :
    ((step cexConfig editorState (Event.saveProject demoForm)).1).cache = emptyCache :=
  (write_clears_whole_cache cexConfig editorState (Event.saveProject demoForm) rfl).1

/-- C4 witness: creating a project from the demo editor state stores the
payload with `lastActivity` resolved to the store's server time 7. -/
theorem lastActivity_is_server_time_witness :
    aget (getColl ((step cexConfig editorNewState (Event.saveProject demoForm)).1).store
        "projects") (newId editorNewState.store)
      = some (resolveSentinels editorNewState.store.now (buildPayload demoForm))
    ∧ aget (resolveSentinels editorNewState.store.now (buildPayload demoForm)) "lastActivity"
        = some (Value.time editorNewState.store.now) :=
  lastActivity_is_server_time.2.1 cexConfig editorNewState demoForm rfl rfl rfl rfl rfl

/-- C5 counterexample: the cache is not keyed by the call's argument.  After
a querying fetch of the projects collection, a fetch of `regions` within the
window performs no store query and returns the cached projects rows - its
first row still carries `supplierName`, which no regions row has; likewise,
after fetching project `p1`'s empty comments, a fetch of `p2`'s comments
within the window returns the empty snapshot although `p2` has one comment
in the store. -/
theorem fetch_cache_not_keyed_by_argument :
    (fetch_collection sharedState1 "regions").2.2 = false
    ∧ aget (((fetch_collection sharedState1 "regions").1).headD []) "supplierName"
        = some (Value.s "Acme")
    ∧ aget ((collRows sharedStore "regions").headD []) "supplierName" = none
    ∧ (fetch_comments sharedCommState "p2").2.2 = false
    ∧ ((fetch_comments sharedCommState "p2").1).length = 0
    ∧ (commentRows sharedStore "p2").length = 1 :=
  ⟨rfl, rfl, rfl, rfl, rfl, rfl⟩

/-- C5 witness: a fresh cached snapshot is served back unchanged, with no
store query and no state change. -/
theorem fetch_ttl_cache_witness :
    fetch_collection cachedState "projects" = ([demoRow], cachedState, false) :=
  fetch_ttl_cache.1 cachedState "projects" 0 [demoRow] rfl (by decide)

/-- C6 witness: updating `p1` with the demo form merges: `poRef` takes the
payload value while the stored `legacyNote`, absent from the payload, is
kept. -/
theorem project_update_is_merge_witness :
    aget (getColl ((step cexConfig editorState (Event.saveProject demoForm)).1).store
        "projects") "p1"
      = some (mergeFields demoDoc (resolveSentinels editorState.store.now
          (buildPayload demoForm)))
    ∧ aget (mergeFields demoDoc (resolveSentinels editorState.store.now
        (buildPayload demoForm))) "poRef" = some (Value.s "PO-2")
    ∧ aget (mergeFields demoDoc (resolveSentinels editorState.store.now
        (buildPayload demoForm))) "legacyNote" = some (Value.s "keep") := by
  have h := project_update_is_merge cexConfig editorState demoForm "p1" demoDoc rfl rfl rfl rfl rfl
  refine ⟨h.1, h.2.1 "poRef" (Value.s "PO-2") rfl, ?_⟩
  rw [h.2.2 "legacyNote" rfl]
  rfl

/-- C8 witness: a concrete non-mapping `quantities` value contributes zero,
classifies as not-bundled, and aggregates like an empty mapping. -/
theorem malformed_quantities_contribute_zero_witness :
    sensor_qty_of (some (Value.s "oops")) = Except.ok 0
    ∧ has_bundled_of (some (Value.s "oops")) = Except.ok false
    ∧ sensorsByRegion (badRow :: [demoRow])
        = sensorsByRegion (aset badRow "quantities" (Value.dict []) :: [demoRow]) :=
  malformed_quantities_contribute_zero (some (Value.s "oops")) badRow [demoRow]
    (fun d h => Value.noConfusion (Option.some.inj h))
    (fun d h => Value.noConfusion (Option.some.inj h))

/-- C9 witness: Bob exists in the credential store but not in the role map;
after login his session role is exactly `readonly`. -/
theorem login_role_defaults_readonly_witness :
    aget (((step cexConfig cexState0 (Event.loginSubmit "bob@x.com" "pw")).1)).sess "role"
      = some (Value.s "readonly") :=
  (login_role_defaults_readonly cexConfig cexState0 "bob@x.com" "pw" rfl rfl).1 rfl
